import Mathlib

/-!
Shallow embedding of the CppAwait async-coroutine runtime core
(`src/CppAwait/Awaitable.cpp`, `src/CppAwait/Coro.cpp`,
`src/CppAwait/Scheduler.cpp`, `src/include/CppAwait/Awaitable.h`),
together with theorems settling the specification claims about the
Awaitable / Completer state machine, the destructor semantics, the
scheduler ticket cancellation, and the `awaitAny` combinator.

Coroutine identities are modelled as natural numbers.  Exception
pointers (`std::exception_ptr`) are modelled by `ut.Exc`, whose values
carry identity: the two process-wide sentinels (`ForcedUnwind::ptr()`,
`YieldForbidden::ptr()`) and user exceptions tagged by a number.  An
empty `std::exception_ptr` is `Option.none`.

Control transfers and observable callbacks are recorded as an explicit
event trace (`ut.Event`), which lets temporal claims (ordering of the
done signal versus the transfer to the awaiter) be stated as facts
about list positions.
-/

namespace ut

/-- Exception pointers with identity: the two leaked process-wide
sentinel `exception_ptr`s made in `initCoroLib` (`Coro.cpp`), plus
user exceptions distinguished by a tag. -/
inductive Exc where
  | forcedUnwind
  | yieldForbidden
  | user (n : Nat)
deriving DecidableEq, Repr

/-- The fields of `AwaitableImpl` (`Awaitable.cpp`, lines 97-119) that
participate in the state machine.  `completerGuard` is `true` while the
shared guard object (`std::shared_ptr<char>`) is alive; every
`Completer` copy holds a weak reference to the same guard, so a copy is
expired exactly when this flag is `false`.  The `tag`, `userData` and
logging fields are inert and omitted. -/
structure AwtState where
  boundCoro : Option Nat
  awaitingCoro : Option Nat
  didComplete : Bool
  exceptionPtr : Option Exc
  completerGuard : Bool
deriving DecidableEq, Repr

/-- `Awaitable::didFail` / `Awaitable::isDone`. -/
def AwtState.didFail (s : AwtState) : Bool :=
  s.exceptionPtr.isSome

/-- `Awaitable::isDone`: completed or failed. -/
def AwtState.isDone (s : AwtState) : Bool :=
  s.didComplete || s.didFail

/-- State of the awaitable produced by `Awaitable::Awaitable(tag)`:
*nil* (no completer taken, not done, no coroutines attached). -/
def nilAwt : AwtState :=
  { boundCoro := none
  , awaitingCoro := none
  , didComplete := false
  , exceptionPtr := none
  , completerGuard := false }

/-- Observable events of a run: firing the done-callback signal
(`m->onDone(this)`) with the awaitable state the observers see,
yielding control to a registered awaiter, resuming a coroutine with an
exception (`yieldExceptionTo`), pushing/popping a master-coro guard,
and destroying a coroutine (`delete m->boundCoro`). -/
inductive Event where
  | fireDoneSignal (snapshot : AwtState)
  | yieldToAwaiter (awaiter : Nat) (snapshot : AwtState)
  | resumeWithException (coro : Nat) (e : Exc)
  | pushMaster
  | popMaster
  | destroyCoro (coro : Nat)
deriving DecidableEq, Repr

/-- `Awaitable::complete` (`Awaitable.cpp`, lines 287-304): set
`didComplete`, drop the completer guard, fire the done signal,
then - if an awaiting coro is registered - yield to it.  The function
asserts `!didComplete() && !didFail()`; theorems carry these as
hypotheses. -/
def AwtState.complete (s : AwtState) : AwtState × List Event :=
  let s' := { s with didComplete := true, completerGuard := false }
  match s'.awaitingCoro with
  | some c => (s', [Event.fireDoneSignal s', Event.yieldToAwaiter c s'])
  | none => (s', [Event.fireDoneSignal s'])

/-- `Awaitable::fail` (`Awaitable.cpp`, lines 306-324): store the
exception, drop the completer guard, fire the done signal, then yield
to the awaiting coro if any.  Asserts `!didFail() && !didComplete()`
and a non-empty `exception_ptr`; theorems carry these as hypotheses. -/
def AwtState.fail (e : Exc) (s : AwtState) : AwtState × List Event :=
  let s' := { s with exceptionPtr := some e, completerGuard := false }
  match s'.awaitingCoro with
  | some c => (s', [Event.fireDoneSignal s', Event.yieldToAwaiter c s'])
  | none => (s', [Event.fireDoneSignal s'])

/-- `Awaitable::takeCompleter` (`Awaitable.cpp`, lines 246-255):
allocate the shared guard; asserts that it was not taken before. -/
def AwtState.takeCompleter (s : AwtState) : AwtState :=
  { s with completerGuard := true }

/-- An *armed* awaitable: completer outstanding and not yet done. -/
def AwtState.armed (s : AwtState) : Prop :=
  s.completerGuard = true ∧ s.didComplete = false ∧ s.exceptionPtr = none

/-- `Completer::complete` (`Awaitable.cpp`, lines 331-340): a no-op
when the weak guard reference is expired, otherwise forwards to
`Awaitable::complete`. -/
def completerComplete (s : AwtState) : AwtState × List Event :=
  if s.completerGuard then s.complete else (s, [])

/-- `Completer::fail` (`Awaitable.cpp`, lines 342-351): a no-op when
expired, otherwise forwards to `Awaitable::fail`. -/
def completerFail (e : Exc) (s : AwtState) : AwtState × List Event :=
  if s.completerGuard then s.fail e else (s, [])

/-- An invocation on some copy of the completer. -/
inductive COp where
  | complete
  | fail (e : Exc)
deriving DecidableEq, Repr

/-- Apply one completer invocation. -/
def applyCOp : COp → AwtState → AwtState × List Event
  | COp.complete, s => completerComplete s
  | COp.fail e, s => completerFail e s

/-- Run a sequence of completer invocations (across arbitrary copies:
all copies reference the same awaitable and the same guard). -/
def runCOps : List COp → AwtState → AwtState
  | [], s => s
  | op :: rest, s => runCOps rest (applyCOp op s).1

/-- Outcome of `Awaitable::await` as seen by the calling coro before
any resumption: an immediate return, an immediate rethrow of the
stored exception, or a suspension after recording the awaiting coro
and yielding to the master coro. -/
inductive AwaitResult where
  | returned
  | raised (e : Exc)
  | suspendedOn (s : AwtState)
deriving DecidableEq, Repr

/-- `Awaitable::await` (`Awaitable.cpp`, lines 195-219), first half,
up to `yieldTo(masterCoro())`.  Asserts `currentCoro() != masterCoro()`
and `awaitingCoro == nullptr`; theorems carry these as hypotheses.
If already complete, return; else if an exception is stored, rethrow
it; else record the current coro as awaiting and suspend. -/
def AwtState.await (cur : Nat) (s : AwtState) : AwaitResult :=
  if s.didComplete then AwaitResult.returned
  else
    match s.exceptionPtr with
    | some e => AwaitResult.raised e
    | none => AwaitResult.suspendedOn { s with awaitingCoro := some cur }

/-- `Awaitable::await`, second half, after `yieldTo(masterCoro())`
returns: assert `isDone()`, clear `awaitingCoro`, and rethrow the
stored exception if any.  Returns the updated state and the exception
rethrown in the awaiter (`none` = normal return). -/
def AwtState.awaitResume (s : AwtState) : AwtState × Option Exc :=
  ({ s with awaitingCoro := none }, s.exceptionPtr)

/-- How the user body passed to `startAsync` exits: a normal return,
an escaping `ForcedUnwind`, or any other uncaught exception. -/
inductive BodyOutcome where
  | normal
  | forcedUnwind
  | threw (e : Exc)
deriving DecidableEq, Repr

/-- The exception pointer captured by the catch clauses of the
`startAsync` coro entry function (`Awaitable.cpp`, lines 387-410):
empty on normal return, the premade sentinel on `ForcedUnwind`, the
current exception otherwise. -/
def coroEntryEptr : BodyOutcome → Option Exc
  | BodyOutcome.normal => none
  | BodyOutcome.forcedUnwind => some Exc.forcedUnwind
  | BodyOutcome.threw e => some e

/-- Tail of the `startAsync` coro entry function (`Awaitable.cpp`,
lines 412-428), run when the user body has exited: assert the
awaitable is not yet done, rewire the bound coro's parent to the
awaiting coro (or the master) and clear `awaitingCoro` so the
subsequent `complete` / `fail` does not yield from within the body,
then fail with the captured exception or complete. -/
def startAsyncEntry (outcome : BodyOutcome) (m : AwtState) : AwtState × List Event :=
  let m1 := { m with awaitingCoro := none }
  match coroEntryEptr outcome with
  | some e => m1.fail e
  | none => m1.complete

/-- State of the awaitable built by `startAsync` (`Awaitable.cpp`,
lines 376-442) right after the bound coro is attached: a fresh
awaitable whose guard is held by the runtime (line 383) and whose
`boundCoro` is the new coro (line 434). -/
def startAsyncInit (coroId : Nat) : AwtState :=
  { nilAwt with completerGuard := true, boundCoro := some coroId }

/-- Result of running `Awaitable::~Awaitable`: the final state of the
impl (as observed by done-signal subscribers), the bound coro's
running flag when the destructor returns (`none` when there is no
bound coro), and the trace of observable events. -/
structure DtorResult where
  finalAwt : AwtState
  coroRunningAfter : Option Bool
  events : List Event
deriving DecidableEq, Repr

/-- `forceUnwind(m->boundCoro)` performed by the destructor, together
with what the resumed coro does (`Coro.cpp` lines 524-531 and 452-493,
`Awaitable.cpp` lines 385-432): the coro is resumed with the
`ForcedUnwind` sentinel; the exception propagates out of the user
body; the entry function catches it and fails the awaitable with the
premade sentinel; the trampoline then marks the coro as no longer
running and yields back.  Returns the awaitable state, the coro's
running flag (always `false` afterwards), and the events. -/
def unwindBoundCoro (coroId : Nat) (m : AwtState) : AwtState × Bool × List Event :=
  let (m', evs) := startAsyncEntry BodyOutcome.forcedUnwind m
  (m', false, Event.resumeWithException coroId Exc.forcedUnwind :: evs)

/-- `Awaitable::~Awaitable` (`Awaitable.cpp`, lines 131-179).
`boundRunning` is `m->boundCoro->isRunning()` on entry (ignored when
there is no bound coro).  If done: assert no awaiting coro, destroy
the bound coro if any (asserting it is not running).  Otherwise:
clear `awaitingCoro`; if a bound coro exists (asserted running),
force-unwind it under a push-master guard and then destroy it; else
fail the awaitable with the `YieldForbidden` sentinel. -/
def awtDestructor (s : AwtState) (boundRunning : Bool) : DtorResult :=
  if s.isDone then
    match s.boundCoro with
    | some c =>
      { finalAwt := s, coroRunningAfter := some boundRunning
      , events := [Event.destroyCoro c] }
    | none => { finalAwt := s, coroRunningAfter := none, events := [] }
  else
    let s1 := { s with awaitingCoro := none }
    match s.boundCoro with
    | some c =>
      let (s2, running, evs) := unwindBoundCoro c s1
      { finalAwt := s2, coroRunningAfter := some running
      , events := Event.pushMaster :: evs ++ [Event.popMaster, Event.destroyCoro c] }
    | none =>
      let (s2, evs) := s1.fail Exc.yieldForbidden
      { finalAwt := s2, coroRunningAfter := none, events := evs }

/-- `Awaitable::Awaitable(std::string tag)` (`Awaitable.cpp`, lines
121-129): throws a `std::runtime_error` when the scheduler hook has
not been installed via `initScheduler`, else yields a nil awaitable. -/
def mkAwaitable (schedInstalled : Bool) : Except String AwtState :=
  if schedInstalled then Except.ok nilAwt
  else Except.error "Scheduler hook not setup, you must call initScheduler()"

/-!
Scheduler tickets (`Scheduler.cpp`, `misc/Scheduler.h`).

`scheduleWithTicket` boxes the action in a `std::shared_ptr<Action>`
cell, enqueues a `WeakAction` wrapper holding a weak reference to that
cell, and returns a `Ticket` owning the only strong reference.  In the
model, `cell = some c` means the cell is still alive with functor
contents `c` (`c = none` is an empty `Action`), and `cell = none`
means the ticket was destroyed or reset, so the wrapper's weak
reference is expired.  `executed` records the actions that actually
ran, in order.
-/

/-- The shared cell issued by `scheduleWithTicket`, plus the record of
executed actions. -/
structure TicketSys (A : Type) where
  cell : Option (Option A)
  executed : List A
deriving DecidableEq, Repr

/-- `scheduleWithTicket(action)` (`Scheduler.cpp`, lines 83-92): make
the shared cell holding the action; the returned ticket owns it. -/
def scheduleWithTicket {A : Type} (a : A) : TicketSys A :=
  { cell := some (some a), executed := [] }

/-- `Ticket::reset` / `Ticket::~Ticket` (`misc/Scheduler.h`): drop the
strong reference, destroying the shared cell. -/
def ticketReset {A : Type} (t : TicketSys A) : TicketSys A :=
  { t with cell := none }

/-- `WeakAction::operator()` (`Scheduler.cpp`, lines 54-62), run when
the scheduler dispatches the wrapper: if the weak reference locks, run
the cell's current contents and reset the functor; if the cell is
gone, do nothing. -/
def dispatchWrapper {A : Type} (t : TicketSys A) : TicketSys A :=
  match t.cell with
  | some c => { cell := some none, executed := t.executed ++ c.toList }
  | none => t

/-!
`awaitAny` (`src/include/CppAwait/Awaitable.h`, lines 334-385).

A collection element is modelled by what `selectAwaitable` extracts
from it: `none` for a null selection, `some s` for an awaitable in
state `s`.  The combinator has two phases separated by
`yieldTo(mainContext())`; while suspended, the environment (the main
loop) completes or fails one of the registered awaitables, which
transfers control back.
-/

/-- Index of the first element that selects a non-null awaitable in a
done state (the first loop of `awaitAny` and the scan after
resumption). -/
def firstDoneIdx : List (Option AwtState) → Option Nat
  | [] => none
  | some s :: rest =>
    if s.isDone then some 0 else (firstDoneIdx rest).map (· + 1)
  | none :: rest => (firstDoneIdx rest).map (· + 1)

/-- Register the current coro as awaiter on every non-null element
(the second loop of `awaitAny`). -/
def setAwaiting (cur : Nat) (l : List (Option AwtState)) : List (Option AwtState) :=
  l.map (Option.map fun s => { s with awaitingCoro := some cur })

/-- Clear the awaiting coro on every non-null element (the loop after
resumption). -/
def clearAwaiting (l : List (Option AwtState)) : List (Option AwtState) :=
  l.map (Option.map fun s => { s with awaitingCoro := none })

/-- Outcome of `awaitAny` before any suspension: `immediate pos l`
returns iterator `pos` (with `none` for the end iterator) leaving the
elements `l` untouched; `suspended l` yields to the master after
registering the current coro on every non-null element. -/
inductive AwaitAnyOutcome where
  | immediate (pos : Option Nat) (l : List (Option AwtState))
  | suspended (l : List (Option AwtState))
deriving DecidableEq, Repr

/-- `awaitAny`, first phase, up to `yieldTo(mainContext())`
(`Awaitable.h`, lines 334-363): return the first element already
done; if nothing is pending, return the end iterator; otherwise
register the current coro on every non-null element and suspend.
Asserts `currentContext() != mainContext()`; theorems carry this. -/
def awaitAny (cur : Nat) (l : List (Option AwtState)) : AwaitAnyOutcome :=
  match firstDoneIdx l with
  | some i => AwaitAnyOutcome.immediate (some i) l
  | none =>
    if l.any Option.isSome then AwaitAnyOutcome.suspended (setAwaiting cur l)
    else AwaitAnyOutcome.immediate none l

/-- `awaitAny`, second phase, after `yieldTo(mainContext())` returns
(`Awaitable.h`, lines 365-384): clear `mAwaitingContext` on every
non-null element and return an iterator to the first done element
(asserted to exist).  The stored exception is not raised here. -/
def awaitAnyResume (l : List (Option AwtState)) : List (Option AwtState) × Option Nat :=
  (clearAwaiting l, firstDoneIdx l)

/-- Number of times a trace resumes some coroutine with the
`ForcedUnwind` sentinel. -/
def countForcedResumes : List Event → Nat
  | [] => 0
  | Event.resumeWithException _ Exc.forcedUnwind :: rest => countForcedResumes rest + 1
  | _ :: rest => countForcedResumes rest

/-! ### Theorems -/

/-- Claim C9: constructing an `Awaitable` before the scheduler hook
has been installed via `initScheduler` throws a `std::runtime_error`
(it neither asserts nor silently succeeds), so no partially
constructed awaitable is observable. -/
theorem awaitable_ctor_requires_scheduler :
    mkAwaitable false
      = Except.error "Scheduler hook not setup, you must call initScheduler()" := rfl

/-- Claim C6: resetting or destroying a ticket before the scheduler
dispatches the `WeakAction` wrapper prevents the action from ever
running (the wrapper finds the shared cell gone and does nothing);
dispatch after which the ticket is destroyed still ran the action
exactly once, the later destruction having no effect; and cancelling
twice is the same as cancelling once. -/
theorem ticket_cancellation {A : Type} (a : A) (t : TicketSys A) :
    (dispatchWrapper (ticketReset (scheduleWithTicket a))).executed = []
    ∧ dispatchWrapper (ticketReset (scheduleWithTicket a))
        = ticketReset (scheduleWithTicket a)
    ∧ (dispatchWrapper (scheduleWithTicket a)).executed = [a]
    ∧ (ticketReset (dispatchWrapper (scheduleWithTicket a))).executed
        = (dispatchWrapper (scheduleWithTicket a)).executed
    ∧ ticketReset (ticketReset t) = ticketReset t :=
  ⟨rfl, rfl, rfl, rfl, rfl⟩

/-- Claim C1: when the body passed to `startAsync` exits normally, the
awaitable ends completed (`didComplete` true, no stored exception);
when it exits with an uncaught exception other than the forced-unwind
sentinel, the awaitable ends failed with exactly that exception
stored.  The hypotheses are the entry function's assertions: the
awaitable is not yet done when the body exits. -/
theorem startAsync_roundtrip (m : AwtState)
    (hnc : m.didComplete = false) (hnf : m.exceptionPtr = none) :
    ((startAsyncEntry BodyOutcome.normal m).1.didComplete = true
      ∧ (startAsyncEntry BodyOutcome.normal m).1.exceptionPtr = none)
    ∧ ∀ e : Exc, e ≠ Exc.forcedUnwind →
        (startAsyncEntry (BodyOutcome.threw e) m).1.didComplete = false
        ∧ (startAsyncEntry (BodyOutcome.threw e) m).1.exceptionPtr = some e := by
  refine ⟨⟨?_, ?_⟩, fun e _ => ⟨?_, ?_⟩⟩ <;>
    simp [startAsyncEntry, coroEntryEptr, AwtState.complete, AwtState.fail, hnc, hnf]

/-- Witness for `startAsync_roundtrip` at the state `startAsync`
builds before running the body. -/
theorem startAsync_roundtrip_witness :
    (startAsyncEntry BodyOutcome.normal (startAsyncInit 0)).1.didComplete = true
    ∧ (startAsyncEntry (BodyOutcome.threw (Exc.user 7)) (startAsyncInit 0)).1.exceptionPtr
        = some (Exc.user 7) := by
  have h := startAsync_roundtrip (startAsyncInit 0) rfl rfl
  exact ⟨h.1.1, (h.2 (Exc.user 7) (by decide)).2⟩

/-- Claim C2: `await` from a non-master coro returns at once on an
already-completed awaitable, rethrows the stored exception on an
already-failed one, and otherwise records the current coro as the
awaiting coro and suspends; on resumption (the awaitable then being
done) the awaiting-coro field is cleared and the stored exception, if
any, is rethrown in the awaiter.  The hypotheses are `await`'s
assertions: the caller is not the master coro and no other coro is
already awaiting. -/
theorem await_spec (cur master : Nat) (s : AwtState)
    (hcm : cur ≠ master) (hnoaw : s.awaitingCoro = none) :
    (s.didComplete = true → s.await cur = AwaitResult.returned)
    ∧ (∀ e, s.didComplete = false → s.exceptionPtr = some e →
        s.await cur = AwaitResult.raised e)
    ∧ (s.didComplete = false → s.exceptionPtr = none →
        s.await cur = AwaitResult.suspendedOn { s with awaitingCoro := some cur })
    ∧ ∀ s' : AwtState, s'.isDone = true →
        s'.awaitResume.1.awaitingCoro = none ∧ s'.awaitResume.2 = s'.exceptionPtr := by
  refine ⟨fun h => ?_, fun e h he => ?_, fun h he => ?_, fun s' _ => ⟨rfl, rfl⟩⟩ <;>
    simp [AwtState.await, h, *]

/-- Witness for `await_spec` on a failed awaitable awaited by coro 1
with coro 0 as master. -/
theorem await_spec_witness :
    ({ nilAwt with exceptionPtr := some (Exc.user 3) } : AwtState).await 1
      = AwaitResult.raised (Exc.user 3) :=
  ((await_spec 1 0 { nilAwt with exceptionPtr := some (Exc.user 3) }
    (by decide) rfl).2.1 (Exc.user 3) rfl rfl)

/-- Claim C7: on an awaitable with a registered awaiting coro, both
`complete` and `fail` fire the done-callback signal strictly before
transferring control to the awaiter, and both the state the signal
observers see and the state at the transfer are already done.  The
hypotheses are the assertions of `complete` / `fail`: not yet done. -/
theorem done_signal_before_awaiter (s : AwtState) (c : Nat) (e : Exc)
    (haw : s.awaitingCoro = some c)
    (hnc : s.didComplete = false) (hnf : s.exceptionPtr = none) :
    (∃ s', s.complete.2 = [Event.fireDoneSignal s', Event.yieldToAwaiter c s']
      ∧ s'.isDone = true)
    ∧ ∃ s', (s.fail e).2 = [Event.fireDoneSignal s', Event.yieldToAwaiter c s']
      ∧ s'.isDone = true := by
  constructor
  · refine ⟨{ s with didComplete := true, completerGuard := false }, ?_, ?_⟩ <;>
      simp [AwtState.complete, AwtState.isDone, AwtState.didFail, haw]
  · refine ⟨{ s with exceptionPtr := some e, completerGuard := false }, ?_, ?_⟩ <;>
      simp [AwtState.fail, AwtState.isDone, AwtState.didFail, haw]

/-- Witness for `done_signal_before_awaiter` on an armed awaitable
awaited by coro 2. -/
theorem done_signal_before_awaiter_witness :
    ∃ s', (({ nilAwt with completerGuard := true, awaitingCoro := some 2 } : AwtState).complete).2
      = [Event.fireDoneSignal s', Event.yieldToAwaiter 2 s'] ∧ s'.isDone = true :=
  (done_signal_before_awaiter
    { nilAwt with completerGuard := true, awaitingCoro := some 2 }
    2 (Exc.user 0) rfl rfl rfl).1

/-- A completer invocation on an awaitable whose guard has been
dropped is a no-op: the weak reference is expired, so neither
`Awaitable::complete` nor `Awaitable::fail` is reached. -/
theorem applyCOp_expired (op : COp) (s : AwtState) (h : s.completerGuard = false) :
    applyCOp op s = (s, []) := by
  cases op <;> simp [applyCOp, completerComplete, completerFail, h]

/-- A whole sequence of completer invocations on an awaitable whose
guard has been dropped leaves the state untouched. -/
theorem runCOps_expired (ops : List COp) (s : AwtState) (h : s.completerGuard = false) :
    runCOps ops s = s := by
  induction ops with
  | nil => rfl
  | cons op rest ih => simp [runCOps, applyCOp_expired op s h, ih]

/-- `Awaitable::complete` and `Awaitable::fail` both drop the guard. -/
theorem applyCOp_clears_guard (op : COp) (s : AwtState) :
    (applyCOp op s).1.completerGuard = false := by
  by_cases h : s.completerGuard = true
  · cases op with
    | complete =>
      simp only [applyCOp, completerComplete, h, if_pos]
      unfold AwtState.complete
      cases haw : s.awaitingCoro <;> simp [haw]
    | fail e =>
      simp only [applyCOp, completerFail, h, if_pos]
      unfold AwtState.fail
      cases haw : s.awaitingCoro <;> simp [haw]
  · have hf : s.completerGuard = false := by simpa using h
    rw [applyCOp_expired op s hf]
    exact hf

/-- Claim C3: starting from an armed awaitable, the first completer
invocation (on any copy) produces a state transition to a done state
and drops the shared guard; every later invocation on any copy finds
the guard expired and is a no-op; and the transition records a
completion exactly for a `complete` call and a failure exactly for a
`fail` call, so completion and failure are mutually exclusive and
happen at most once. -/
theorem completer_at_most_once (s : AwtState) (h : s.armed) (op : COp) (rest : List COp) :
    (applyCOp op s).1.isDone = true
    ∧ (applyCOp op s).1.completerGuard = false
    ∧ (applyCOp op s).1 ≠ s
    ∧ ((applyCOp op s).1.didComplete = true ↔ op = COp.complete)
    ∧ (∀ e, (applyCOp op s).1.exceptionPtr = some e ↔ op = COp.fail e)
    ∧ runCOps (op :: rest) s = (applyCOp op s).1 := by
  obtain ⟨hg, hnc, hnf⟩ := h
  have step : ∀ o : COp, applyCOp o s
      = (match o with
         | COp.complete => s.complete
         | COp.fail e => s.fail e) := by
    intro o
    cases o <;> simp [applyCOp, completerComplete, completerFail, hg]
  refine ⟨?_, ?_, ?_, ?_, ?_, ?_⟩
  · cases op <;>
      · rw [step]
        unfold AwtState.complete AwtState.fail
        cases haw : s.awaitingCoro <;>
          simp [haw, AwtState.isDone, AwtState.didFail]
  · exact applyCOp_clears_guard op s
  · intro hEq
    have := congrArg AwtState.completerGuard hEq
    rw [applyCOp_clears_guard op s, hg] at this
    exact Bool.false_ne_true this
  · cases op <;>
      · rw [step]
        unfold AwtState.complete AwtState.fail
        cases haw : s.awaitingCoro <;> simp [haw, hnc]
  · intro e
    cases op <;>
      · rw [step]
        unfold AwtState.complete AwtState.fail
        cases haw : s.awaitingCoro <;> simp [haw, hnf]
  · show runCOps rest (applyCOp op s).1 = (applyCOp op s).1
    exact runCOps_expired rest _ (applyCOp_clears_guard op s)

/-- Witness for `completer_at_most_once`: on a freshly armed awaitable
a `complete` followed by two more invocations transitions exactly
once. -/
theorem completer_at_most_once_witness :
    (applyCOp COp.complete (nilAwt.takeCompleter)).1.isDone = true
    ∧ runCOps [COp.complete, COp.fail (Exc.user 1), COp.complete] nilAwt.takeCompleter
        = (applyCOp COp.complete (nilAwt.takeCompleter)).1 := by
  have h := completer_at_most_once nilAwt.takeCompleter ⟨rfl, rfl, rfl⟩
    COp.complete [COp.fail (Exc.user 1), COp.complete]
  exact ⟨h.1, h.2.2.2.2.2⟩

/-- Claim C4: destroying an awaitable whose bound coro is still
running resumes that coro exactly once with the `ForcedUnwind`
sentinel, under a push-master guard; the coro has finished unwinding
(is no longer running) before the destructor returns, and the
destructor destroys it as its last act on the coro.  The full event
trace and final state are pinned down exactly. -/
theorem dtor_unwind_running (s : AwtState) (c : Nat)
    (hnd : s.isDone = false) (hb : s.boundCoro = some c) :
    awtDestructor s true =
      { finalAwt := { s with awaitingCoro := none,
                             exceptionPtr := some Exc.forcedUnwind,
                             completerGuard := false }
      , coroRunningAfter := some false
      , events := [Event.pushMaster,
                   Event.resumeWithException c Exc.forcedUnwind,
                   Event.fireDoneSignal { s with awaitingCoro := none,
                                                 exceptionPtr := some Exc.forcedUnwind,
                                                 completerGuard := false },
                   Event.popMaster, Event.destroyCoro c] }
    ∧ countForcedResumes (awtDestructor s true).events = 1
    ∧ (awtDestructor s true).coroRunningAfter = some false
    ∧ (awtDestructor s true).events.getLast? = some (Event.destroyCoro c) := by
  have heq : awtDestructor s true =
      { finalAwt := { s with awaitingCoro := none,
                             exceptionPtr := some Exc.forcedUnwind,
                             completerGuard := false }
      , coroRunningAfter := some false
      , events := [Event.pushMaster,
                   Event.resumeWithException c Exc.forcedUnwind,
                   Event.fireDoneSignal { s with awaitingCoro := none,
                                                 exceptionPtr := some Exc.forcedUnwind,
                                                 completerGuard := false },
                   Event.popMaster, Event.destroyCoro c] } := by
    simp [awtDestructor, hnd, hb, unwindBoundCoro, startAsyncEntry, coroEntryEptr,
      AwtState.fail]
  refine ⟨heq, ?_, ?_, ?_⟩ <;> rw [heq] <;> rfl

/-- Witness for `dtor_unwind_running`: destroying the awaitable made
by `startAsync` for coro 5 while the coro is still running. -/
theorem dtor_unwind_running_witness :
    countForcedResumes (awtDestructor (startAsyncInit 5) true).events = 1
    ∧ (awtDestructor (startAsyncInit 5) true).coroRunningAfter = some false :=
  ⟨(dtor_unwind_running (startAsyncInit 5) 5 rfl rfl).2.1,
   (dtor_unwind_running (startAsyncInit 5) 5 rfl rfl).2.2.1⟩

/-- Counterexample to claim C5 as stated: a *nil* awaitable - one
whose completer was never taken (`completerGuard = false`) and which
has no bound coro - destroyed while not done IS failed with the
`YieldForbidden` sentinel and fires the done signal, contradicting
the claim that such an awaitable is not failed this way. -/
theorem dtor_nil_fails_yieldForbidden :
    nilAwt.completerGuard = false
    ∧ nilAwt.isDone = false
    ∧ nilAwt.boundCoro = none
    ∧ (awtDestructor nilAwt false).finalAwt.exceptionPtr = some Exc.yieldForbidden
    ∧ (awtDestructor nilAwt false).events
        = [Event.fireDoneSignal { nilAwt with exceptionPtr := some Exc.yieldForbidden }] :=
  ⟨rfl, rfl, rfl, rfl, rfl⟩

/-- Claim C5 (amended): destroying an awaitable that is not yet done
and has no bound coro fails it with the `YieldForbidden` sentinel and
fires the done-callback signal before returning - regardless of
whether the completer was ever taken. -/
theorem dtor_unbound_fails (s : AwtState)
    (hnd : s.isDone = false) (hb : s.boundCoro = none) :
    (awtDestructor s false).finalAwt.exceptionPtr = some Exc.yieldForbidden
    ∧ (awtDestructor s false).events
        = [Event.fireDoneSignal { s with awaitingCoro := none,
                                         exceptionPtr := some Exc.yieldForbidden,
                                         completerGuard := false }] := by
  constructor <;> simp [awtDestructor, hnd, hb, AwtState.fail]

/-- Witness for `dtor_unbound_fails` on an armed awaitable (completer
taken, not done, no bound coro). -/
theorem dtor_unbound_fails_witness :
    (awtDestructor nilAwt.takeCompleter false).finalAwt.exceptionPtr
      = some Exc.yieldForbidden :=
  (dtor_unbound_fails nilAwt.takeCompleter rfl rfl).1

/-! ### List lemmas for the `awaitAny` combinator -/

/-- Setting index `j` and reading it back. -/
theorem list_get?_set_self {α : Type} (l : List α) (j : Nat) (x : α)
    (h : j < l.length) : (l.set j x).get? j = some x := by
  induction l generalizing j with
  | nil => simp at h
  | cons a rest ih =>
    cases j with
    | zero => rfl
    | succ j => exact ih j (Nat.lt_of_succ_lt_succ h)

/-- Setting index `j` leaves every other index unchanged. -/
theorem list_get?_set_ne {α : Type} (l : List α) (j i : Nat) (x : α)
    (h : i ≠ j) : (l.set j x).get? i = l.get? i := by
  induction l generalizing i j with
  | nil => rfl
  | cons a rest ih =>
    cases j with
    | zero =>
      cases i with
      | zero => exact absurd rfl h
      | succ i => rfl
    | succ j =>
      cases i with
      | zero => rfl
      | succ i => exact ih j i fun hij => h (congrArg Nat.succ hij)

/-- Reading a mapped list. -/
theorem list_get?_map {α β : Type} (f : α → β) (l : List α) (i : Nat) :
    (l.map f).get? i = (l.get? i).map f := by
  induction l generalizing i with
  | nil => rfl
  | cons a rest ih =>
    cases i with
    | zero => rfl
    | succ i => exact ih i

/-- An index that reads back a value is in bounds. -/
theorem list_get?_some_lt {α : Type} (l : List α) (i : Nat) (x : α)
    (h : l.get? i = some x) : i < l.length := by
  induction l generalizing i with
  | nil => exact absurd h (by simp [List.get?])
  | cons a rest ih =>
    cases i with
    | zero => exact Nat.succ_pos _
    | succ i => exact Nat.succ_lt_succ (ih i h)

/-- Registering an awaiter does not change which elements are done. -/
theorem firstDoneIdx_setAwaiting (cur : Nat) (l : List (Option AwtState)) :
    firstDoneIdx (setAwaiting cur l) = firstDoneIdx l := by
  unfold setAwaiting
  induction l with
  | nil => rfl
  | cons o rest ih =>
    cases o with
    | none => simp only [List.map_cons, Option.map_none', firstDoneIdx, ih]
    | some s =>
      simp only [List.map_cons, Option.map_some', firstDoneIdx, ih]
      rfl

/-- Clearing the awaiter does not change which elements are done. -/
theorem firstDoneIdx_clearAwaiting (l : List (Option AwtState)) :
    firstDoneIdx (clearAwaiting l) = firstDoneIdx l := by
  unfold clearAwaiting
  induction l with
  | nil => rfl
  | cons o rest ih =>
    cases o with
    | none => simp only [List.map_cons, Option.map_none', firstDoneIdx, ih]
    | some s =>
      simp only [List.map_cons, Option.map_some', firstDoneIdx, ih]
      rfl

/-- When no element is done, every non-null element is not done. -/
theorem firstDoneIdx_none_not_done (l : List (Option AwtState))
    (h : firstDoneIdx l = none) :
    ∀ i s, l.get? i = some (some s) → s.isDone = false := by
  induction l with
  | nil => intro i s hi; exact absurd hi (by simp [List.get?])
  | cons o rest ih =>
    intro i s hi
    cases o with
    | none =>
      cases i with
      | zero => exact absurd hi (by simp [List.get?])
      | succ i =>
        have hrest : firstDoneIdx rest = none := by
          simpa [firstDoneIdx] using h
        exact ih hrest i s hi
    | some s0 =>
      have hnd : s0.isDone = false := by
        by_contra hcon
        rw [Bool.not_eq_false] at hcon
        simp [firstDoneIdx, hcon] at h
      cases i with
      | zero =>
        have : s0 = s := by
          have := hi
          simp [List.get?] at this
          exact this
        rw [← this]; exact hnd
      | succ i =>
        have hrest : firstDoneIdx rest = none := by
          simpa [firstDoneIdx, hnd] using h
        exact ih hrest i s hi

/-- Replacing element `j` of a list with no done element by a done
awaitable makes `j` the first done index. -/
theorem firstDoneIdx_set_done (l : List (Option AwtState)) (j : Nat) (s' : AwtState)
    (hnone : firstDoneIdx l = none) (hj : j < l.length) (hd : s'.isDone = true) :
    firstDoneIdx (l.set j (some s')) = some j := by
  induction l generalizing j with
  | nil => simp at hj
  | cons o rest ih =>
    cases j with
    | zero => simp [List.set, firstDoneIdx, hd]
    | succ j =>
      have hjr : j < rest.length := Nat.lt_of_succ_lt_succ hj
      cases o with
      | none =>
        have hrest : firstDoneIdx rest = none := by
          simpa [firstDoneIdx] using hnone
        simp [List.set, firstDoneIdx, ih j hrest hjr]
      | some s0 =>
        have hnd : s0.isDone = false := by
          by_contra hcon
          rw [Bool.not_eq_false] at hcon
          simp [firstDoneIdx, hcon] at hnone
        have hrest : firstDoneIdx rest = none := by
          simpa [firstDoneIdx, hnd] using hnone
        simp [List.set, firstDoneIdx, hnd, ih j hrest hjr]

/-- Claim C8: for a collection on which `awaitAny` is called from a
non-master coro: if some element is already done, the first such
element's iterator is returned at once, without suspending and
without modifying the collection; otherwise the current coro is
registered on every non-null element and the coro suspends; when the
environment completes or fails one registered element `j` and the
coro resumes, `awaitAnyResume` clears the awaiting coro on every
element and returns the iterator to `j`, the first done element,
without raising its exception, while every other element remains not
done. -/
theorem awaitAny_spec (cur master : Nat) (l : List (Option AwtState))
    (hcm : cur ≠ master) :
    (∀ i, firstDoneIdx l = some i →
      awaitAny cur l = AwaitAnyOutcome.immediate (some i) l)
    ∧ (firstDoneIdx l = none → l.any Option.isSome = true →
        awaitAny cur l = AwaitAnyOutcome.suspended (setAwaiting cur l)
        ∧ (∀ i s, (setAwaiting cur l).get? i = some (some s) →
            s.awaitingCoro = some cur)
        ∧ ∀ j sj s', (setAwaiting cur l).get? j = some (some sj) →
            s'.isDone = true →
            (awaitAnyResume ((setAwaiting cur l).set j (some s'))).2 = some j
            ∧ (∀ i s,
                (awaitAnyResume ((setAwaiting cur l).set j (some s'))).1.get? i
                  = some (some s) → s.awaitingCoro = none)
            ∧ (∀ i s, i ≠ j →
                (awaitAnyResume ((setAwaiting cur l).set j (some s'))).1.get? i
                  = some (some s) → s.isDone = false)
            ∧ ∃ sd,
                (awaitAnyResume ((setAwaiting cur l).set j (some s'))).1.get? j
                  = some (some sd) ∧ sd.isDone = true) := by
  constructor
  · intro i hi
    simp [awaitAny, hi]
  · intro hnone hany
    refine ⟨by simp [awaitAny, hnone, hany], ?_, ?_⟩
    · intro i s hi
      unfold setAwaiting at hi
      rw [list_get?_map] at hi
      cases hl : l.get? i with
      | none => rw [hl] at hi; exact absurd hi (by simp)
      | some o =>
        rw [hl] at hi
        cases o with
        | none => exact absurd hi (by simp)
        | some s0 =>
          simp only [Option.map_some'] at hi
          have : ({ s0 with awaitingCoro := some cur } : AwtState) = s := by
            simpa using hi
          rw [← this]
    · intro j sj s' hj hd
      have hLnone : firstDoneIdx (setAwaiting cur l) = none := by
        rw [firstDoneIdx_setAwaiting]; exact hnone
      have hjlt : j < (setAwaiting cur l).length :=
        list_get?_some_lt _ j (some sj) hj
      have hfd : firstDoneIdx ((setAwaiting cur l).set j (some s')) = some j :=
        firstDoneIdx_set_done _ j s' hLnone hjlt hd
      refine ⟨?_, ?_, ?_, ?_⟩
      · simp [awaitAnyResume, firstDoneIdx_clearAwaiting, hfd]
      · intro i s hi
        simp only [awaitAnyResume] at hi
        unfold clearAwaiting at hi
        rw [list_get?_map] at hi
        cases hl : ((setAwaiting cur l).set j (some s')).get? i with
        | none => rw [hl] at hi; exact absurd hi (by simp)
        | some o =>
          rw [hl] at hi
          cases o with
          | none => exact absurd hi (by simp)
          | some s0 =>
            simp only [Option.map_some'] at hi
            have : ({ s0 with awaitingCoro := none } : AwtState) = s := by
              simpa using hi
            rw [← this]
      · intro i s hne hi
        simp only [awaitAnyResume] at hi
        unfold clearAwaiting at hi
        rw [list_get?_map, list_get?_set_ne _ j i _ hne] at hi
        cases hl : (setAwaiting cur l).get? i with
        | none => rw [hl] at hi; exact absurd hi (by simp)
        | some o =>
          rw [hl] at hi
          cases o with
          | none => exact absurd hi (by simp)
          | some s0 =>
            simp only [Option.map_some'] at hi
            have hs : ({ s0 with awaitingCoro := none } : AwtState) = s := by
              simpa using hi
            have hnd : s0.isDone = false :=
              firstDoneIdx_none_not_done _ hLnone i s0 hl
            rw [← hs]
            exact hnd
      · refine ⟨{ s' with awaitingCoro := none }, ?_, ?_⟩
        · simp only [awaitAnyResume]
          unfold clearAwaiting
          rw [list_get?_map, list_get?_set_self _ j _ (by simpa using hjlt)]
          rfl
        · exact hd

/-- Witness for `awaitAny_spec`: two pending awaitables, coro 1
registers on both, the environment completes element 1, and resume
returns iterator 1 with element 0 still not done. -/
theorem awaitAny_spec_witness :
    (awaitAnyResume ((setAwaiting 1 [some nilAwt.takeCompleter, some nilAwt.takeCompleter]).set 1
      (some { nilAwt with didComplete := true }))).2 = some 1 := by
  have h := ((awaitAny_spec 1 0 [some nilAwt.takeCompleter, some nilAwt.takeCompleter]
    (by decide)).2 rfl rfl).2.2 1
    { nilAwt.takeCompleter with awaitingCoro := some 1 }
    { nilAwt with didComplete := true } rfl rfl
  exact h.1

/-- Claim C10: when no element of the collection selects a non-null
awaitable (in particular for the empty collection), `awaitAny`
returns the end iterator without suspending and without modifying any
element. -/
theorem awaitAny_no_selection (cur : Nat) (l : List (Option AwtState))
    (h : ∀ o ∈ l, o = none) :
    awaitAny cur l = AwaitAnyOutcome.immediate none l := by
  have h1 : firstDoneIdx l = none := by
    induction l with
    | nil => rfl
    | cons o rest ih =>
      have ho : o = none := h o (List.mem_cons_self o rest)
      have hr : firstDoneIdx rest = none :=
        ih fun o' ho' => h o' (List.mem_cons_of_mem o ho')
      rw [ho]
      simp [firstDoneIdx, hr]
  have h2 : l.any Option.isSome = false := by
    rw [List.any_eq_false]
    intro o ho
    rw [h o ho]
    simp
  simp [awaitAny, h1, h2]

/-- Witness for `awaitAny_no_selection` on a two-element collection of
null selections. -/
theorem awaitAny_no_selection_witness :
    awaitAny 1 [none, none] = AwaitAnyOutcome.immediate none [none, none] :=
  awaitAny_no_selection 1 [none, none] (by simp)

end ut


